import Mathlib

/-!
# Campus Connect — shallow embedding of the opportunity subsystem

This file embeds, in Lean 4, the query-building / upsert / polymorphic-lookup
layer of the Campus Connect backend:

* `BaseOpportunityModel.buildWhereClause` (the Filter Compiler),
* `WorkOpportunityModel.create` / `EventOpportunityModel.create` (the Upsert
  Engine, `INSERT ... ON CONFLICT (type, apply_url) DO UPDATE`),
* `BaseOpportunityModel.findById` / `update` / `delete` / `incrementViewCount`,
* the cross-store controller (`opportunityController`: get / patch / delete by
  id, probing the work-store then the event-store),
* `validators.validatePagination` and the pagination metadata of `findAll`,
* `batchController.batchCreate` (the Batch Coordinator).

Stores are modelled as lists of rows; the SQL `ON CONFLICT` upsert becomes an
explicit lookup on the `(subtype, apply_url)` unique key followed by either an
insert or the `DO UPDATE SET` field assignments; timestamps are abstract `Nat`
values supplied by the caller (`now`); database-generated ids are supplied
explicitly (`newId`).  Query-parameter values are strings or string lists, the
two shapes Express produces for `req.query`.
-/

/-- A raw query-parameter value: Express delivers each `req.query` entry either
as a string or as a list of strings. -/
inductive QVal where
  | str (s : String)
  | list (xs : List String)
deriving DecidableEq, Repr

/-- JavaScript truthiness of a query value: the empty string is falsy, every
other string is truthy, and an array is always truthy. -/
def QVal.truthy : QVal → Bool
  | .str s => s ≠ ""
  | .list _ => true

/-- Truthiness of a possibly-absent value (`undefined` is falsy). -/
def oTruthy : Option QVal → Bool
  | some v => v.truthy
  | none => false

/-- JS template-literal stringification: an array joins with commas. -/
def QVal.toText : QVal → String
  | .str s => s
  | .list xs => String.intercalate "," xs

/-- Embeds `Array.isArray(v) ? v : v.split(',').map(t => t.trim())` — the shape every
list-valued filter (tags / skills / domain) is normalised to. -/
def QVal.toArray : QVal → List String
  | .list xs => xs
  | .str s => (s.splitOn ",").map String.trim

/-- The filter bag handed to `findAll` / `buildWhereClause`.  It is the spread
of `req.query` plus whatever keys the controller forces; each recognised key is
an optional raw value.  `work_type` is present because `workController` writes
it into the bag (`{...req.query, work_type: 'internship'}`); note that
`buildWhereClause` itself never reads it. -/
structure Filters where
  type : Option QVal := none
  work_type : Option QVal := none
  status : Option QVal := none
  includeInactive : Option QVal := none
  city : Option QVal := none
  country : Option QVal := none
  work_style : Option QVal := none
  featured : Option QVal := none
  verified : Option QVal := none
  search : Option QVal := none
  tags : Option QVal := none
  skills : Option QVal := none
  domain : Option QVal := none
  fees : Option QVal := none
  deadline : Option QVal := none
  sort : Option QVal := none
  order : Option QVal := none
deriving DecidableEq, Repr

/-- A bound SQL parameter value as pushed onto the `values` array. -/
inductive SqlVal where
  | raw (v : QVal)
  | s (v : String)
  | arr (xs : List String)
  | date (ms : Nat)
deriving DecidableEq, Repr

/-- One emitted SQL predicate of `buildWhereClause`, with the positional
parameter index (indices) it references.  `typeEq` records the discriminator
column name (`this.typeField`). -/
inductive Cond where
  | typeEq (col : String) (idx : Nat)
  | statusEq (idx : Nat)
  | cityLike (idx : Nat)
  | countryLike (idx : Nat)
  | workStyleEq (idx : Nat)
  | featuredTrue
  | verifiedTrue
  | searchTs (idx : Nat)
  | tagsOverlap (idx : Nat)
  | skillsOverlap (idx : Nat)
  | domainOverlap (idx : Nat)
  | feesEq (idx : Nat)
  | deadlineBetween (idx : Nat)
deriving DecidableEq, Repr

/-- Accumulator threaded through the sequence of `if (filters.x)` blocks of
`buildWhereClause`: the conditions list, the values list and the next free
parameter index. -/
structure WhereAcc where
  conds : List Cond
  vals : List SqlVal
  idx : Nat
deriving DecidableEq, Repr

namespace BaseOpportunityModel

/-- Embeds `if (filters.type) { conditions.push(typeField = $i); values.push(filters.type) }` -/
def typeSeg (typeField : String) (f : Filters) (a : WhereAcc) : WhereAcc :=
  match f.type with
  | some v =>
    if v.truthy then
      { conds := a.conds ++ [.typeEq typeField a.idx], vals := a.vals ++ [.raw v],
        idx := a.idx + 1 }
    else a
  | none => a

/-- Embeds `if (filters.status) {... status = $i ...} else if (!filters.includeInactive)
{... status = $i with value 'active' ...}` -/
def statusSeg (f : Filters) (a : WhereAcc) : WhereAcc :=
  match f.status with
  | some v =>
    if v.truthy then
      { conds := a.conds ++ [.statusEq a.idx], vals := a.vals ++ [.raw v],
        idx := a.idx + 1 }
    else
      if oTruthy f.includeInactive then a
      else
        { conds := a.conds ++ [.statusEq a.idx], vals := a.vals ++ [.s "active"],
          idx := a.idx + 1 }
  | none =>
    if oTruthy f.includeInactive then a
    else
      { conds := a.conds ++ [.statusEq a.idx], vals := a.vals ++ [.s "active"],
        idx := a.idx + 1 }

/-- Embeds `if (filters.city) { LOWER(city) LIKE LOWER($i), value '%city%' }` -/
def citySeg (f : Filters) (a : WhereAcc) : WhereAcc :=
  match f.city with
  | some v =>
    if v.truthy then
      { conds := a.conds ++ [.cityLike a.idx],
        vals := a.vals ++ [.s ("%" ++ v.toText ++ "%")], idx := a.idx + 1 }
    else a
  | none => a

/-- Embeds `if (filters.country) { LOWER(country) LIKE LOWER($i), value '%country%' }` -/
def countrySeg (f : Filters) (a : WhereAcc) : WhereAcc :=
  match f.country with
  | some v =>
    if v.truthy then
      { conds := a.conds ++ [.countryLike a.idx],
        vals := a.vals ++ [.s ("%" ++ v.toText ++ "%")], idx := a.idx + 1 }
    else a
  | none => a

/-- Embeds `if (filters.work_style) { work_style = $i }` -/
def workStyleSeg (f : Filters) (a : WhereAcc) : WhereAcc :=
  match f.work_style with
  | some v =>
    if v.truthy then
      { conds := a.conds ++ [.workStyleEq a.idx], vals := a.vals ++ [.raw v],
        idx := a.idx + 1 }
    else a
  | none => a

/-- Embeds `if (filters.featured === 'true' || filters.featured === true) { is_featured = true }`
(no bound parameter).  Over query values the `=== true` disjunct is
unreachable, so the test is equality with the string `'true'`. -/
def featuredSeg (f : Filters) (a : WhereAcc) : WhereAcc :=
  if f.featured = some (.str "true") then
    { a with conds := a.conds ++ [.featuredTrue] }
  else a

/-- Embeds `if (filters.verified === 'true' || filters.verified === true) { is_verified = true }` -/
def verifiedSeg (f : Filters) (a : WhereAcc) : WhereAcc :=
  if f.verified = some (.str "true") then
    { a with conds := a.conds ++ [.verifiedTrue] }
  else a

/-- Embeds `if (filters.search) { tsvector(title || organization || company) @@ plainto_tsquery($i) }` -/
def searchSeg (f : Filters) (a : WhereAcc) : WhereAcc :=
  match f.search with
  | some v =>
    if v.truthy then
      { conds := a.conds ++ [.searchTs a.idx], vals := a.vals ++ [.raw v],
        idx := a.idx + 1 }
    else a
  | none => a

/-- Embeds `if (filters.tags) { tags && $i }` with comma-split normalisation. -/
def tagsSeg (f : Filters) (a : WhereAcc) : WhereAcc :=
  match f.tags with
  | some v =>
    if v.truthy then
      { conds := a.conds ++ [.tagsOverlap a.idx], vals := a.vals ++ [.arr v.toArray],
        idx := a.idx + 1 }
    else a
  | none => a

/-- Embeds `if (filters.skills) { skills && $i }` -/
def skillsSeg (f : Filters) (a : WhereAcc) : WhereAcc :=
  match f.skills with
  | some v =>
    if v.truthy then
      { conds := a.conds ++ [.skillsOverlap a.idx], vals := a.vals ++ [.arr v.toArray],
        idx := a.idx + 1 }
    else a
  | none => a

/-- Embeds `if (filters.domain) { domain && $i }` -/
def domainSeg (f : Filters) (a : WhereAcc) : WhereAcc :=
  match f.domain with
  | some v =>
    if v.truthy then
      { conds := a.conds ++ [.domainOverlap a.idx], vals := a.vals ++ [.arr v.toArray],
        idx := a.idx + 1 }
    else a
  | none => a

/-- Embeds `if (filters.fees) { fees = $i }` -/
def feesSeg (f : Filters) (a : WhereAcc) : WhereAcc :=
  match f.fees with
  | some v =>
    if v.truthy then
      { conds := a.conds ++ [.feesEq a.idx], vals := a.vals ++ [.raw v],
        idx := a.idx + 1 }
    else a
  | none => a

/-- The 30 / 7 / 30-day forward windows of the deadline switch, in ms. -/
def dayMs : Nat := 24 * 60 * 60 * 1000

/-- Embeds `if (filters.deadline) { switch ... 'upcoming' | 'this_week' | 'this_month':
deadline BETWEEN $i AND $(i+1) }`; an unrecognised value matches no case and
emits nothing. -/
def deadlineSeg (now : Nat) (f : Filters) (a : WhereAcc) : WhereAcc :=
  match f.deadline with
  | some v =>
    if v.truthy then
      if v = .str "upcoming" then
        { conds := a.conds ++ [.deadlineBetween a.idx],
          vals := a.vals ++ [.date now, .date (now + 30 * dayMs)], idx := a.idx + 2 }
      else if v = .str "this_week" then
        { conds := a.conds ++ [.deadlineBetween a.idx],
          vals := a.vals ++ [.date now, .date (now + 7 * dayMs)], idx := a.idx + 2 }
      else if v = .str "this_month" then
        { conds := a.conds ++ [.deadlineBetween a.idx],
          vals := a.vals ++ [.date now, .date (now + 30 * dayMs)], idx := a.idx + 2 }
      else a
    else a
  | none => a

/-- Embeds `BaseOpportunityModel.buildWhereClause(filters)`: the sequence of filter
blocks, starting from empty conditions/values and parameter index 1.
`typeField` is `this.typeField` (`'work_type'` or `'event_type'`); `now` is the
evaluation time used by the deadline windows. -/
def buildWhereClause (typeField : String) (f : Filters) (now : Nat) : WhereAcc :=
  deadlineSeg now f <| feesSeg f <| domainSeg f <| skillsSeg f <| tagsSeg f <|
    searchSeg f <| verifiedSeg f <| featuredSeg f <| workStyleSeg f <|
      countrySeg f <| citySeg f <| statusSeg f <| typeSeg typeField f
        { conds := [], vals := [], idx := 1 }

end BaseOpportunityModel

/-!
## Rows and the Upsert Engine

A stored row, mirroring the columns of `opportunities_work` /
`opportunities_event` that the embedded operations read or write.  `subtype`
is the discriminator column (`work_type` resp. `event_type`); timestamps are
abstract instants (`Nat`). -/

structure Row where
  id : String
  subtype : String
  title : String
  apply_url : String
  city : Option String := none
  country : Option String := none
  work_style : Option String := none
  organization : Option String := none
  company : Option String := none
  image_url : Option String := none
  stipend : Option String := none
  duration : Option String := none
  salary : Option String := none
  experience : Option String := none
  skills : Option (List String) := none
  who_can_apply : Option String := none
  team_size : Option String := none
  fees : Option String := none
  perks : Option String := none
  event_date : Option Nat := none
  learning_type : Option String := none
  deadline : Option Nat := none
  tags : Option (List String) := none
  domain : Option (List String) := none
  status : String := "active"
  is_verified : Bool := false
  is_featured : Bool := false
  view_count : Nat := 0
  source : String := "manual"
  external_id : Option String := none
  posted_date : Nat := 0
  last_seen_date : Nat := 0
  created_at : Nat := 0
  updated_at : Nat := 0
deriving DecidableEq, Repr

/-- A store (one table) is the list of its rows. -/
abbrev Store := List Row

/-- The incoming payload (`data`) of a create call.  Optional fields model
JS `undefined`; `data.x || null` becomes the `Option` itself and
`data.x || dflt` becomes `getD`. -/
structure CreateData where
  title : String
  apply_url : String
  city : Option String := none
  country : Option String := none
  work_style : Option String := none
  organization : Option String := none
  company : Option String := none
  image_url : Option String := none
  stipend : Option String := none
  duration : Option String := none
  salary : Option String := none
  experience : Option String := none
  skills : Option (List String) := none
  who_can_apply : Option String := none
  team_size : Option String := none
  fees : Option String := none
  perks : Option String := none
  event_date : Option Nat := none
  learning_type : Option String := none
  deadline : Option Nat := none
  tags : Option (List String) := none
  domain : Option (List String) := none
  source : Option String := none
  external_id : Option String := none
  is_verified : Option Bool := none
  is_featured : Option Bool := none
deriving DecidableEq, Repr

/-- Result of a create call: the returned row plus the `action` tag computed in
the same statement (`CASE WHEN xmax = 0 THEN 'created' ELSE 'updated' END`). -/
structure CreateResult where
  row : Row
  action : String
deriving DecidableEq, Repr

/-- The `(subtype, apply_url)` unique-constraint predicate that `ON CONFLICT`
matches on. -/
def keyMatch (subtype url : String) (r : Row) : Bool :=
  r.subtype = subtype && r.apply_url = url

/-- The `ON CONFLICT (subtype, apply_url)` key lookup: the row hit by the
unique constraint, if any. -/
def findConflict (store : Store) (subtype url : String) : Option Row :=
  store.find? (keyMatch subtype url)

/-- Number of rows in a store carrying a given `(subtype, apply_url)` key. -/
def keyCount (store : Store) (subtype url : String) : Nat :=
  (store.filter (keyMatch subtype url)).length

namespace WorkOpportunityModel

/-- The `DO UPDATE SET` list of `WorkOpportunityModel.create`: refreshes
`last_seen_date`, revives `status` from `'expired'` to `'active'` (any other
status is kept), and overwrites the mutable descriptive fields from
`EXCLUDED` (the incoming payload). -/
def conflictUpdate (old : Row) (d : CreateData) (now : Nat) : Row :=
  { old with
    last_seen_date := now
    status := if old.status = "expired" then "active" else old.status
    title := d.title
    city := d.city
    country := d.country
    work_style := d.work_style
    organization := d.organization
    company := d.company <|> d.organization
    deadline := d.deadline
    tags := d.tags
    stipend := d.stipend
    duration := d.duration
    salary := d.salary
    experience := d.experience
    skills := d.skills
    updated_at := now }

/-- The fresh row inserted by `WorkOpportunityModel.create` when no conflict
fires: the 21 column values of the `INSERT`, with database defaults
(`status 'active'`, `view_count 0`, `NOW()` timestamps, generated id). -/
def newRow (d : CreateData) (workType : String) (newId : String) (now : Nat) : Row :=
  { id := newId
    subtype := workType
    title := d.title
    apply_url := d.apply_url
    city := d.city
    country := d.country
    work_style := d.work_style
    organization := d.organization
    company := d.company <|> d.organization
    image_url := d.image_url
    stipend := d.stipend
    duration := d.duration
    salary := d.salary
    experience := d.experience
    skills := d.skills
    who_can_apply := d.who_can_apply
    deadline := d.deadline
    tags := d.tags
    source := d.source.getD "manual"
    external_id := d.external_id
    is_verified := d.is_verified.getD false
    is_featured := d.is_featured.getD false
    status := "active"
    view_count := 0
    posted_date := now
    last_seen_date := now
    created_at := now
    updated_at := now }

/-- Embeds `WorkOpportunityModel.create(data, workType)`: the
`INSERT ... ON CONFLICT (work_type, apply_url) DO UPDATE` upsert, returning
the resulting row tagged `'created'` or `'updated'` together with the new
store.  A single atomic operation — no separate existence-check query. -/
def create (store : Store) (d : CreateData) (workType : String)
    (newId : String) (now : Nat) : CreateResult × Store :=
  match findConflict store workType d.apply_url with
  | some old =>
    ({ row := conflictUpdate old d now, action := "updated" },
     store.map fun r =>
       if keyMatch workType d.apply_url r then conflictUpdate r d now else r)
  | none =>
    ({ row := newRow d workType newId now, action := "created" },
     store ++ [newRow d workType newId now])

end WorkOpportunityModel

namespace EventOpportunityModel

/-- The `DO UPDATE SET` list of `EventOpportunityModel.create`: refreshes
`last_seen_date`, revives `status` from `'expired'` or `'archived'` to
`'active'` (any other status is kept), and overwrites the mutable descriptive
fields from `EXCLUDED`. -/
def conflictUpdate (old : Row) (d : CreateData) (now : Nat) : Row :=
  { old with
    last_seen_date := now
    status := if old.status = "expired" || old.status = "archived" then "active"
              else old.status
    title := d.title
    city := d.city
    country := d.country
    organization := d.organization
    deadline := d.deadline
    event_date := d.event_date
    tags := d.tags
    domain := d.domain
    team_size := d.team_size
    fees := d.fees
    perks := d.perks
    updated_at := now }

/-- The fresh row inserted by `EventOpportunityModel.create` when no conflict
fires: the 19 column values of the `INSERT` plus database defaults. -/
def newRow (d : CreateData) (eventType : String) (newId : String) (now : Nat) : Row :=
  { id := newId
    subtype := eventType
    title := d.title
    apply_url := d.apply_url
    city := d.city
    country := d.country
    organization := d.organization
    image_url := d.image_url
    team_size := d.team_size
    fees := d.fees
    perks := d.perks
    event_date := d.event_date
    learning_type := d.learning_type
    deadline := d.deadline
    tags := d.tags
    domain := d.domain
    source := d.source.getD "manual"
    external_id := d.external_id
    is_verified := d.is_verified.getD false
    is_featured := d.is_featured.getD false
    status := "active"
    view_count := 0
    posted_date := now
    last_seen_date := now
    created_at := now
    updated_at := now }

/-- Embeds `EventOpportunityModel.create(data, eventType)`: the
`INSERT ... ON CONFLICT (event_type, apply_url) DO UPDATE` upsert. -/
def create (store : Store) (d : CreateData) (eventType : String)
    (newId : String) (now : Nat) : CreateResult × Store :=
  match findConflict store eventType d.apply_url with
  | some old =>
    ({ row := conflictUpdate old d now, action := "updated" },
     store.map fun r =>
       if keyMatch eventType d.apply_url r then conflictUpdate r d now else r)
  | none =>
    ({ row := newRow d eventType newId now, action := "created" },
     store ++ [newRow d eventType newId now])

end EventOpportunityModel

/-!
## Base model operations (findById / incrementViewCount / update / delete)
-/

/-- The value of one field of a PATCH body (`req.body`), heterogeneous as in
JSON: string, boolean, string list, timestamp, `null`, or an explicitly
`undefined` entry. -/
inductive FieldVal where
  | str (s : String)
  | boolean (b : Bool)
  | strList (xs : List String)
  | natVal (n : Nat)
  | nullVal
  | undef
deriving DecidableEq, Repr

/-- JS truthiness of a body field value. -/
def FieldVal.truthy : FieldVal → Bool
  | .str s => s ≠ ""
  | .boolean b => b
  | .strList _ => true
  | .natVal n => n ≠ 0
  | .nullVal => false
  | .undef => false

/-- Truthiness of `updates.key` when the key may be absent. -/
def fieldTruthy : Option FieldVal → Bool
  | some v => v.truthy
  | none => false

/-- A PATCH body: the ordered key/value entries of the JSON object
(`Object.keys` order). -/
abbrev Updates := List (String × FieldVal)

namespace BaseOpportunityModel

/-- Embeds `findById`: `SELECT * FROM table WHERE id = $1`, first row or null. -/
def findById (store : Store) (id : String) : Option Row :=
  store.find? fun r => r.id = id

/-- Embeds `incrementViewCount`: `UPDATE ... SET view_count = view_count + 1,
updated_at = NOW() WHERE id = $1`. -/
def incrementViewCount (store : Store) (id : String) (now : Nat) : Store :=
  store.map fun r =>
    if r.id = id then { r with view_count := r.view_count + 1, updated_at := now }
    else r

/-- The allow-list of updatable columns in `BaseOpportunityModel.update`. -/
def allowedFields : List String :=
  ["title", "city", "country", "work_style", "organization",
   "company", "image_url", "deadline", "tags", "stipend",
   "duration", "salary", "experience", "skills", "who_can_apply",
   "team_size", "fees", "perks", "event_date", "learning_type",
   "domain", "is_verified", "is_featured", "status"]

/-- Apply one `field = $i` assignment of the generated `UPDATE ... SET` to a
row.  Only names on the allow-list ever reach this function; a value whose
JSON type does not fit the column leaves the row unchanged (the database
would reject such a statement, which no claim exercises). -/
def applyField (r : Row) (name : String) (v : FieldVal) : Row :=
  match name, v with
  | "title", .str s => { r with title := s }
  | "city", .str s => { r with city := some s }
  | "city", .nullVal => { r with city := none }
  | "country", .str s => { r with country := some s }
  | "country", .nullVal => { r with country := none }
  | "work_style", .str s => { r with work_style := some s }
  | "work_style", .nullVal => { r with work_style := none }
  | "organization", .str s => { r with organization := some s }
  | "organization", .nullVal => { r with organization := none }
  | "company", .str s => { r with company := some s }
  | "company", .nullVal => { r with company := none }
  | "image_url", .str s => { r with image_url := some s }
  | "image_url", .nullVal => { r with image_url := none }
  | "deadline", .natVal n => { r with deadline := some n }
  | "deadline", .nullVal => { r with deadline := none }
  | "tags", .strList xs => { r with tags := some xs }
  | "tags", .nullVal => { r with tags := none }
  | "stipend", .str s => { r with stipend := some s }
  | "stipend", .nullVal => { r with stipend := none }
  | "duration", .str s => { r with duration := some s }
  | "duration", .nullVal => { r with duration := none }
  | "salary", .str s => { r with salary := some s }
  | "salary", .nullVal => { r with salary := none }
  | "experience", .str s => { r with experience := some s }
  | "experience", .nullVal => { r with experience := none }
  | "skills", .strList xs => { r with skills := some xs }
  | "skills", .nullVal => { r with skills := none }
  | "who_can_apply", .str s => { r with who_can_apply := some s }
  | "who_can_apply", .nullVal => { r with who_can_apply := none }
  | "team_size", .str s => { r with team_size := some s }
  | "team_size", .nullVal => { r with team_size := none }
  | "fees", .str s => { r with fees := some s }
  | "fees", .nullVal => { r with fees := none }
  | "perks", .str s => { r with perks := some s }
  | "perks", .nullVal => { r with perks := none }
  | "event_date", .natVal n => { r with event_date := some n }
  | "event_date", .nullVal => { r with event_date := none }
  | "learning_type", .str s => { r with learning_type := some s }
  | "learning_type", .nullVal => { r with learning_type := none }
  | "domain", .strList xs => { r with domain := some xs }
  | "domain", .nullVal => { r with domain := none }
  | "is_verified", .boolean b => { r with is_verified := b }
  | "is_featured", .boolean b => { r with is_featured := b }
  | "status", .str s => { r with status := s }
  | _, _ => r

/-- Embeds `BaseOpportunityModel.update(id, updates)`: collects the body entries
whose key is on the allow-list and whose value is not `undefined`; with none
collected it throws `'No valid fields to update'` before issuing any SQL;
otherwise it runs `UPDATE ... SET ... , updated_at = NOW() WHERE id = $n
RETURNING *` and throws `'Opportunity not found'` when no row matched. -/
def update (store : Store) (id : String) (updates : Updates) (now : Nat) :
    Except String (Row × Store) :=
  let setFields := updates.filter fun p => allowedFields.contains p.1 && p.2 ≠ .undef
  if setFields.isEmpty then .error "No valid fields to update"
  else
    match findById store id with
    | none => .error "Opportunity not found"
    | some r =>
      let r' := { setFields.foldl (fun acc p => applyField acc p.1 p.2) r with
                  updated_at := now }
      .ok (r', store.map fun x => if x.id = id then r' else x)

/-- Embeds `BaseOpportunityModel.delete(id, hardDelete)`: hard delete removes the
row (`DELETE ... WHERE id = $1`); soft delete keeps it with
`status = 'archived'`; both throw `'Opportunity not found'` when the id
matches no row. -/
def delete (store : Store) (id : String) (hardDelete : Bool) (now : Nat) :
    Except String Store :=
  if hardDelete then
    if (findById store id).isSome then
      .ok (store.filter fun r => r.id ≠ id)
    else .error "Opportunity not found"
  else
    if (findById store id).isSome then
      .ok (store.map fun r =>
        if r.id = id then { r with status := "archived", updated_at := now } else r)
    else .error "Opportunity not found"

end BaseOpportunityModel

/-!
## Validators (`utils/validators.js`)
-/

namespace validators

/-- A hexadecimal digit, case-insensitive (`[0-9a-f]` with the `i` flag). -/
def isHexDigit (c : Char) : Bool :=
  c.isDigit || (('a' ≤ c && c ≤ 'f') || ('A' ≤ c && c ≤ 'F'))

/-- Embeds `isValidUUID`: the anchored regex
`^[0-9a-f]{8}-[0-9a-f]{4}-[0-9a-f]{4}-[0-9a-f]{4}-[0-9a-f]{12}$/i` — 36
characters, hyphens at offsets 8, 13, 18, 23, hex digits elsewhere. -/
def isValidUUID (s : String) : Bool :=
  let cs := s.toList
  cs.length = 36 &&
    (List.range 36).all fun i =>
      if i = 8 || i = 13 || i = 18 || i = 23 then cs.getD i ' ' == '-'
      else isHexDigit (cs.getD i ' ')

/-- JS `x || d` over a parsed integer: `parseInt` yielding `NaN` (modelled as
`none`) or `0` (falsy) both fall back to the default. -/
def jsOrInt (x : Option Int) (dflt : Int) : Int :=
  match x with
  | none => dflt
  | some v => if v = 0 then dflt else v

/-- Embeds `validatePagination(page, limit, maxLimit)`:
`page' = max(1, parseInt(page) || 1)`,
`limit' = min(maxLimit, max(1, parseInt(limit) || 10))`.
Inputs are the `parseInt` results (`none` = missing or unparsable). -/
def validatePagination (page limit : Option Int) (maxLimit : Int) : Int × Int :=
  (max 1 (jsOrInt page 1), min maxLimit (max 1 (jsOrInt limit 10)))

end validators

/-!
## Pagination metadata of `findAll`
-/

/-- The `pagination` object returned by `findAll`. -/
structure PaginationMeta where
  total : Nat
  page : Int
  limit : Int
  totalPages : Int
  hasMore : Bool
deriving DecidableEq, Repr

/-- The pagination arithmetic of `findAll` (both models): given the sanitized
`page` and `limit` and the `total` reported by the count query (which runs
under the same WHERE clause as the data query), computes
`offset = (page - 1) * limit` (the data query's `OFFSET`) and the metadata
`{total, page, limit, totalPages: Math.ceil(total / limit),
hasMore: page * limit < total}`. -/
def findAllPagination (page limit : Int) (total : Nat) : Int × PaginationMeta :=
  ((page - 1) * limit,
   { total := total
     page := page
     limit := limit
     totalPages := ⌈(total : ℚ) / (limit : ℚ)⌉
     hasMore := decide ((page * limit : Int) < (total : Int)) })

/-!
## Cross-store controller (`opportunityController.js`)
-/

/-- JS `x || d` over a query value (used for `req.query.sort || 'posted_date'`). -/
def qOr (x : Option QVal) (dflt : QVal) : QVal :=
  match x with
  | some v => if v.truthy then v else dflt
  | none => dflt

namespace opportunityController

/-- Response of `GET /api/opportunities/:id`. -/
inductive GetResp where
  | badRequest
  | notFound
  | ok (row : Row) (category : String)
deriving DecidableEq, Repr

/-- HTTP status code of a `GetResp`. -/
def GetResp.status : GetResp → Nat
  | .badRequest => 400
  | .notFound => 404
  | .ok _ _ => 200

/-- Embeds `getById`: validates the UUID (400 on failure), probes the work table
first, then the event table, 404 when neither matches; on a hit increments
the view count in the owning table and returns the row tagged with the
`category` ('work' or 'event') it came from. -/
def getById (work event : Store) (id : String) (now : Nat) :
    GetResp × Store × Store :=
  if !validators.isValidUUID id then (.badRequest, work, event)
  else
    match BaseOpportunityModel.findById work id with
    | some r =>
      (.ok { r with view_count := r.view_count + 1 } "work",
       BaseOpportunityModel.incrementViewCount work id now, event)
    | none =>
      match BaseOpportunityModel.findById event id with
      | some r =>
        (.ok { r with view_count := r.view_count + 1 } "event",
         work, BaseOpportunityModel.incrementViewCount event id now)
      | none => (.notFound, work, event)

/-- Response of `PATCH /api/opportunities/:id`.  `badRequestType` is the 400
`'Cannot change opportunity type'`; `err` is a model-layer throw surfaced by
the central error handler. -/
inductive UpdateResp where
  | badRequestId
  | badRequestType
  | notFound
  | ok (row : Row)
  | err (msg : String)
deriving DecidableEq, Repr

/-- Embeds `update`: UUID check, rejection of truthy `work_type` / `event_type` body
fields, then work-table-first resolution and `BaseOpportunityModel.update` on
the owning table. -/
def update (work event : Store) (id : String) (updates : Updates) (now : Nat) :
    UpdateResp × Store × Store :=
  if !validators.isValidUUID id then (.badRequestId, work, event)
  else if fieldTruthy (updates.lookup "work_type") ||
          fieldTruthy (updates.lookup "event_type") then
    (.badRequestType, work, event)
  else
    match BaseOpportunityModel.findById work id with
    | some _ =>
      match BaseOpportunityModel.update work id updates now with
      | .ok (r, w') => (.ok r, w', event)
      | .error m => (.err m, work, event)
    | none =>
      match BaseOpportunityModel.findById event id with
      | some _ =>
        match BaseOpportunityModel.update event id updates now with
        | .ok (r, e') => (.ok r, work, e')
        | .error m => (.err m, work, event)
      | none => (.notFound, work, event)

/-- Response of `DELETE /api/opportunities/:id`: `noContent` is
`res.status(204).send()` — no body. -/
inductive DeleteResp where
  | badRequest
  | noContent
  | notFound
  | err (msg : String)
deriving DecidableEq, Repr

/-- HTTP status code of a `DeleteResp`. -/
def DeleteResp.status : DeleteResp → Nat
  | .badRequest => 400
  | .noContent => 204
  | .notFound => 404
  | .err _ => 500

/-- Embeds `delete`: UUID check, then work table first with a hard delete, else
event table with a soft delete (archive), else 404. -/
def delete (work event : Store) (id : String) (now : Nat) :
    DeleteResp × Store × Store :=
  if !validators.isValidUUID id then (.badRequest, work, event)
  else
    match BaseOpportunityModel.findById work id with
    | some _ =>
      match BaseOpportunityModel.delete work id true now with
      | .ok w' => (.noContent, w', event)
      | .error m => (.err m, work, event)
    | none =>
      match BaseOpportunityModel.findById event id with
      | some _ =>
        match BaseOpportunityModel.delete event id false now with
        | .ok e' => (.noContent, work, e')
        | .error m => (.err m, work, event)
      | none => (.notFound, work, event)

end opportunityController

/-!
## Work-controller list endpoints (`workController.js`)
-/

namespace workController

/-- The filter bag `getInternships` passes to `workModel.findAll`:
`{...req.query, work_type: 'internship', sort: req.query.sort || 'posted_date',
order: req.query.order || 'desc'}`. -/
def getInternshipsFilters (q : Filters) : Filters :=
  { q with
    work_type := some (.str "internship")
    sort := some (qOr q.sort (.str "posted_date"))
    order := some (qOr q.order (.str "desc")) }

/-- The filter bag `getJobs` passes to `workModel.findAll`:
`{...req.query, work_type: 'job', ...}`. -/
def getJobsFilters (q : Filters) : Filters :=
  { q with
    work_type := some (.str "job")
    sort := some (qOr q.sort (.str "posted_date"))
    order := some (qOr q.order (.str "desc")) }

end workController

/-!
## Batch Coordinator (`batchController.js`)
-/

namespace batchController

/-- One element of the submitted `opportunities` array: its `type` tag (absent
when the scraper omitted it) and the payload handed to the Upsert Engine. -/
structure BatchItem where
  type : Option String
  payload : CreateData
deriving DecidableEq, Repr

/-- The `opportunities` value of the request body: absent/falsy, present but
not an array, or an array of items. -/
inductive BatchBody where
  | missing
  | nonArray
  | arr (xs : List BatchItem)
deriving DecidableEq, Repr

/-- One entry of the `results` array produced by `bulkUpsert`. -/
structure ItemResult where
  id : Option String
  type : String
  table : String
  status : String
  url : String
deriving DecidableEq, Repr

/-- JS `x || d` over an optional string (the empty string is falsy). -/
def jsOrStr (x : Option String) (dflt : String) : String :=
  match x with
  | none => dflt
  | some s => if s = "" then dflt else s

/-- Embeds `workModel.bulkUpsert`: sequentially upsert each `(work_type, payload)`
pair, recording per-item outcomes.  `supply k` is the database-generated id
for the `k`-th fresh insert of the request. -/
def bulkUpsertWork (store : Store) (opps : List (String × CreateData))
    (supply : Nat → String) (k now : Nat) : List ItemResult × Store × Nat :=
  match opps with
  | [] => ([], store, k)
  | (wt, d) :: rest =>
    let res := WorkOpportunityModel.create store d wt (supply k) now
    let tail := bulkUpsertWork res.2 rest supply (k + 1) now
    ({ id := some res.1.row.id, type := res.1.row.subtype,
       table := "opportunities_work", status := res.1.action,
       url := res.1.row.apply_url } :: tail.1,
     tail.2.1, tail.2.2)

/-- Embeds `eventModel.bulkUpsert`: same shape over the event store. -/
def bulkUpsertEvent (store : Store) (opps : List (String × CreateData))
    (supply : Nat → String) (k now : Nat) : List ItemResult × Store × Nat :=
  match opps with
  | [] => ([], store, k)
  | (et, d) :: rest =>
    let res := EventOpportunityModel.create store d et (supply k) now
    let tail := bulkUpsertEvent res.2 rest supply (k + 1) now
    ({ id := some res.1.row.id, type := res.1.row.subtype,
       table := "opportunities_event", status := res.1.action,
       url := res.1.row.apply_url } :: tail.1,
     tail.2.1, tail.2.2)

/-- Response of `POST /api/opportunities/batch`: the 400 rejections carry the
`error` / `message` pair of the source; `ok` carries the summary counts. -/
inductive BatchResp where
  | badRequest (error message : String)
  | ok (total created updated failed : Nat)
deriving DecidableEq, Repr

/-- HTTP status code of a `BatchResp`. -/
def BatchResp.status : BatchResp → Nat
  | .badRequest _ _ => 400
  | .ok _ _ _ _ => 200

/-- Embeds `batchCreate`: rejects with 400 when `opportunities` is falsy or not an
array, when it is empty, or when it holds more than 500 items — all before
any upsert runs.  Otherwise it stamps each item's `source`, drops items with
a falsy `type`, partitions the rest into the work family
(`internship` / `job`) and the event family
(`hackathon` / `learning` / `scholarship`), runs `bulkUpsert` on each
partition, and reports the created/updated/failed summary. -/
def batchCreate (source : Option String) (body : BatchBody)
    (work event : Store) (supply : Nat → String) (now : Nat) :
    BatchResp × Store × Store :=
  match body with
  | .missing => (.badRequest "Invalid input" "opportunities must be an array", work, event)
  | .nonArray => (.badRequest "Invalid input" "opportunities must be an array", work, event)
  | .arr xs =>
    if xs.length = 0 then
      (.badRequest "Empty batch" "opportunities array cannot be empty", work, event)
    else if 500 < xs.length then
      (.badRequest "Batch too large" "Maximum 500 opportunities per batch", work, event)
    else
      let tagged := xs.map fun it =>
        { it with payload := { it.payload with source := some (jsOrStr source "batch") } }
      let workOpps := tagged.filterMap fun it =>
        match it.type with
        | some t =>
          if t ≠ "" && (t = "internship" || t = "job") then some (t, it.payload)
          else none
        | none => none
      let eventOpps := tagged.filterMap fun it =>
        match it.type with
        | some t =>
          if t ≠ "" && (t = "hackathon" || t = "learning" || t = "scholarship") then
            some (t, it.payload)
          else none
        | none => none
      let workRes := bulkUpsertWork work workOpps supply 0 now
      let eventRes := bulkUpsertEvent event eventOpps supply workRes.2.2 now
      let allResults := workRes.1 ++ eventRes.1
      (.ok xs.length
        (allResults.filter fun r => r.status = "created").length
        (allResults.filter fun r => r.status = "updated").length
        (allResults.filter fun r => r.status = "failed").length,
       workRes.2.1, eventRes.2.1)

end batchController

/-!
## Which filter key each emitted predicate corresponds to
-/

/-- The claim's reading of "no predicate for an absent key": each emitted
predicate's filter key is present in the input bag (a `Filters` field is
`none` exactly when the key is absent from the request). -/
def condKeyPresent (f : Filters) : Cond → Bool
  | .typeEq _ _ => f.type.isSome
  | .statusEq _ => f.status.isSome
  | .cityLike _ => f.city.isSome
  | .countryLike _ => f.country.isSome
  | .workStyleEq _ => f.work_style.isSome
  | .featuredTrue => f.featured.isSome
  | .verifiedTrue => f.verified.isSome
  | .searchTs _ => f.search.isSome
  | .tagsOverlap _ => f.tags.isSome
  | .skillsOverlap _ => f.skills.isSome
  | .domainOverlap _ => f.domain.isSome
  | .feesEq _ => f.fees.isSome
  | .deadlineBetween _ => f.deadline.isSome

/-- Amended justification: as `condKeyPresent`, except that a status predicate
is additionally justified by the documented default — when the bag carries no
`status` key and no truthy `includeInactive`, `buildWhereClause` emits
`status = 'active'` on its own. -/
def condJustified (f : Filters) : Cond → Bool
  | .statusEq i => (Filters.status f).isSome || !oTruthy (Filters.includeInactive f) ||
      condKeyPresent f (.statusEq i)
  | c => condKeyPresent f c

/-!
## Concrete fixtures used by witnesses and counterexamples
-/

/-- A well-formed UUID string (hex digits only). -/
def uuidA : String := "aaaaaaaa-aaaa-aaaa-aaaa-aaaaaaaaaaaa"

/-- A second well-formed UUID string. -/
def uuidB : String := "bbbbbbbb-bbbb-bbbb-bbbb-bbbbbbbbbbbb"

/-- A third well-formed UUID string. -/
def uuidC : String := "cccccccc-cccc-cccc-cccc-cccccccccccc"

/-- An incoming internship payload. -/
def fixWorkData : CreateData :=
  { title := "Intern role", apply_url := "https://careers.example.com/intern" }

/-- An incoming hackathon payload. -/
def fixEventData : CreateData :=
  { title := "Hack night", apply_url := "https://events.example.com/hack" }

/-- A stored, expired work row sharing `fixWorkData`'s key. -/
def fixWorkExpired : Row :=
  { id := uuidA, subtype := "internship", title := "Old intern role",
    apply_url := "https://careers.example.com/intern", status := "expired" }

/-- A stored, archived event row sharing `fixEventData`'s key. -/
def fixEventArchived : Row :=
  { id := uuidB, subtype := "hackathon", title := "Old hack night",
    apply_url := "https://events.example.com/hack", status := "archived" }

/-- A work row whose id collides with `fixE6` across stores. -/
def fixW6 : Row :=
  { id := uuidC, subtype := "job", title := "Backend engineer",
    apply_url := "https://careers.example.com/job" }

/-- An event row whose id collides with `fixW6` across stores. -/
def fixE6 : Row :=
  { id := uuidC, subtype := "hackathon", title := "City hackathon",
    apply_url := "https://events.example.com/h2" }

/-- A work row for the delete scenario. -/
def fixW7 : Row :=
  { id := uuidA, subtype := "internship", title := "Summer internship",
    apply_url := "https://careers.example.com/w7" }

/-- An event row for the archive-on-delete scenario. -/
def fixE7 : Row :=
  { id := uuidB, subtype := "learning", title := "Rust bootcamp",
    apply_url := "https://events.example.com/e7" }

/-- One batch submission element. -/
def fixBatchItem : batchController.BatchItem :=
  { type := some "internship", payload := fixWorkData }

/-- A PATCH body holding only a type-discriminator entry. -/
def fixTypePatch : Updates := [("work_type", FieldVal.str "job")]

/-- A PATCH body holding only an unrecognised key. -/
def fixJunkPatch : Updates := [("nonsense", FieldVal.str "x")]


/-!
## Helper lemmas about the stores
-/

theorem keyMatch_of_fields {st url : String} (g : Row → Row)
    (hs : ∀ r, (g r).subtype = r.subtype) (hu : ∀ r, (g r).apply_url = r.apply_url)
    (r : Row) : keyMatch st url (g r) = keyMatch st url r := by
  simp [keyMatch, hs, hu]

theorem findConflict_eq_none {store : Store} {st url : String}
    (h : keyCount store st url = 0) : findConflict store st url = none := by
  rw [keyCount] at h
  rw [findConflict, List.find?_eq_none]
  intro x hx hq
  have hmem : x ∈ store.filter (keyMatch st url) := List.mem_filter.mpr ⟨hx, hq⟩
  rw [List.length_eq_zero.mp h] at hmem
  exact (List.not_mem_nil x) hmem

theorem keyCount_append (l₁ l₂ : Store) (st url : String) :
    keyCount (l₁ ++ l₂) st url = keyCount l₁ st url + keyCount l₂ st url := by
  simp [keyCount, List.filter_append]

theorem keyCount_map_ite (store : Store) (st url : String) (g : Row → Row)
    (hs : ∀ r, (g r).subtype = r.subtype) (hu : ∀ r, (g r).apply_url = r.apply_url) :
    keyCount (store.map fun r => if keyMatch st url r then g r else r) st url
      = keyCount store st url := by
  induction store with
  | nil => rfl
  | cons r rest ih =>
    by_cases hq : keyMatch st url r = true
    · simp only [List.map_cons, keyCount, List.filter_cons] at *
      rw [if_pos hq, keyMatch_of_fields g hs hu, hq]
      simpa using ih
    · simp only [List.map_cons, keyCount, List.filter_cons] at *
      rw [if_neg hq, (Bool.not_eq_true _).mp hq]
      simpa using ih

theorem findConflict_map_ite (store : Store) (st url : String) (g : Row → Row)
    (hs : ∀ r, (g r).subtype = r.subtype) (hu : ∀ r, (g r).apply_url = r.apply_url)
    (old : Row) (h : findConflict store st url = some old) :
    findConflict (store.map fun r => if keyMatch st url r then g r else r) st url
      = some (g old) := by
  induction store with
  | nil => simp [findConflict] at h
  | cons r rest ih =>
    by_cases hq : keyMatch st url r = true
    · rw [findConflict, List.find?_cons_of_pos _ hq] at h
      rw [List.map_cons, if_pos hq, findConflict,
        List.find?_cons_of_pos _ (by rw [keyMatch_of_fields g hs hu]; exact hq)]
      rw [Option.some_inj.mp h]
    · rw [findConflict, List.find?_cons_of_neg _ hq] at h
      rw [List.map_cons, if_neg hq, findConflict, List.find?_cons_of_neg _ hq]
      exact ih h

theorem findConflict_append_singleton (l : Store) (st url : String) (r : Row)
    (h : findConflict l st url = none) (hk : keyMatch st url r = true) :
    findConflict (l ++ [r]) st url = some r := by
  rw [findConflict] at h ⊢
  rw [List.find?_append, h]
  simp [List.find?, hk]

theorem findById_map_ite (store : Store) (id : String) (g : Row → Row)
    (hid : ∀ r, (g r).id = r.id) (r0 : Row)
    (h : BaseOpportunityModel.findById store id = some r0) :
    BaseOpportunityModel.findById (store.map fun r => if r.id = id then g r else r) id
      = some (g r0) := by
  induction store with
  | nil => simp [BaseOpportunityModel.findById] at h
  | cons r rest ih =>
    by_cases hq : r.id = id
    · rw [BaseOpportunityModel.findById,
        List.find?_cons_of_pos _ (by simpa using hq)] at h
      rw [List.map_cons, if_pos hq, BaseOpportunityModel.findById,
        List.find?_cons_of_pos _ (by simp [hid, hq])]
      rw [Option.some_inj.mp h]
    · rw [BaseOpportunityModel.findById,
        List.find?_cons_of_neg _ (by simpa using hq)] at h
      rw [List.map_cons, if_neg hq, BaseOpportunityModel.findById,
        List.find?_cons_of_neg _ (by simpa using hq)]
      exact ih h

theorem findById_filter_ne (store : Store) (id : String) :
    BaseOpportunityModel.findById (store.filter fun r => r.id ≠ id) id = none := by
  rw [BaseOpportunityModel.findById, List.find?_eq_none]
  intro x hx
  have hne := (List.mem_filter.mp hx).2
  simp only [decide_eq_true_eq] at *
  simp [hne]

namespace BaseOpportunityModel

theorem typeSeg_conds (tf : String) (f : Filters) (a : WhereAcc) (c : Cond)
    (h : c ∈ (typeSeg tf f a).conds) : c ∈ a.conds ∨ condJustified f c = true := by
  unfold typeSeg at h
  cases hf : f.type with
  | none => rw [hf] at h; exact .inl h
  | some v =>
    rw [hf] at h
    simp only [] at h
    by_cases ht : v.truthy
    · rw [if_pos ht] at h
      simp only [List.mem_append, List.mem_singleton] at h
      rcases h with h | h
      · exact .inl h
      · right; subst h; simp [condJustified, condKeyPresent, hf]
    · rw [if_neg ht] at h; exact .inl h

theorem statusSeg_conds (f : Filters) (a : WhereAcc) (c : Cond)
    (h : c ∈ (statusSeg f a).conds) : c ∈ a.conds ∨ condJustified f c = true := by
  unfold statusSeg at h
  cases hf : f.status with
  | some v =>
    rw [hf] at h
    simp only [] at h
    by_cases ht : v.truthy
    · rw [if_pos ht] at h
      simp only [List.mem_append, List.mem_singleton] at h
      rcases h with h | h
      · exact .inl h
      · right; subst h; simp [condJustified, hf]
    · rw [if_neg ht] at h
      by_cases hi : oTruthy f.includeInactive
      · rw [if_pos hi] at h; exact .inl h
      · rw [if_neg hi] at h
        simp only [List.mem_append, List.mem_singleton] at h
        rcases h with h | h
        · exact .inl h
        · right; subst h; simp [condJustified, hf]
  | none =>
    rw [hf] at h
    simp only [] at h
    by_cases hi : oTruthy f.includeInactive
    · rw [if_pos hi] at h; exact .inl h
    · rw [if_neg hi] at h
      simp only [List.mem_append, List.mem_singleton] at h
      rcases h with h | h
      · exact .inl h
      · right; subst h; simp [condJustified, hi]

theorem citySeg_conds (f : Filters) (a : WhereAcc) (c : Cond)
    (h : c ∈ (citySeg f a).conds) : c ∈ a.conds ∨ condJustified f c = true := by
  unfold citySeg at h
  cases hf : f.city with
  | none => rw [hf] at h; exact .inl h
  | some v =>
    rw [hf] at h
    simp only [] at h
    by_cases ht : v.truthy
    · rw [if_pos ht] at h
      simp only [List.mem_append, List.mem_singleton] at h
      rcases h with h | h
      · exact .inl h
      · right; subst h; simp [condJustified, condKeyPresent, hf]
    · rw [if_neg ht] at h; exact .inl h

theorem countrySeg_conds (f : Filters) (a : WhereAcc) (c : Cond)
    (h : c ∈ (countrySeg f a).conds) : c ∈ a.conds ∨ condJustified f c = true := by
  unfold countrySeg at h
  cases hf : f.country with
  | none => rw [hf] at h; exact .inl h
  | some v =>
    rw [hf] at h
    simp only [] at h
    by_cases ht : v.truthy
    · rw [if_pos ht] at h
      simp only [List.mem_append, List.mem_singleton] at h
      rcases h with h | h
      · exact .inl h
      · right; subst h; simp [condJustified, condKeyPresent, hf]
    · rw [if_neg ht] at h; exact .inl h

theorem workStyleSeg_conds (f : Filters) (a : WhereAcc) (c : Cond)
    (h : c ∈ (workStyleSeg f a).conds) : c ∈ a.conds ∨ condJustified f c = true := by
  unfold workStyleSeg at h
  cases hf : f.work_style with
  | none => rw [hf] at h; exact .inl h
  | some v =>
    rw [hf] at h
    simp only [] at h
    by_cases ht : v.truthy
    · rw [if_pos ht] at h
      simp only [List.mem_append, List.mem_singleton] at h
      rcases h with h | h
      · exact .inl h
      · right; subst h; simp [condJustified, condKeyPresent, hf]
    · rw [if_neg ht] at h; exact .inl h

theorem featuredSeg_conds (f : Filters) (a : WhereAcc) (c : Cond)
    (h : c ∈ (featuredSeg f a).conds) : c ∈ a.conds ∨ condJustified f c = true := by
  unfold featuredSeg at h
  by_cases hf : f.featured = some (.str "true")
  · rw [if_pos hf] at h
    simp only [List.mem_append, List.mem_singleton] at h
    rcases h with h | h
    · exact .inl h
    · right; subst h; simp [condJustified, condKeyPresent, hf]
  · rw [if_neg hf] at h; exact .inl h

theorem verifiedSeg_conds (f : Filters) (a : WhereAcc) (c : Cond)
    (h : c ∈ (verifiedSeg f a).conds) : c ∈ a.conds ∨ condJustified f c = true := by
  unfold verifiedSeg at h
  by_cases hf : f.verified = some (.str "true")
  · rw [if_pos hf] at h
    simp only [List.mem_append, List.mem_singleton] at h
    rcases h with h | h
    · exact .inl h
    · right; subst h; simp [condJustified, condKeyPresent, hf]
  · rw [if_neg hf] at h; exact .inl h

theorem searchSeg_conds (f : Filters) (a : WhereAcc) (c : Cond)
    (h : c ∈ (searchSeg f a).conds) : c ∈ a.conds ∨ condJustified f c = true := by
  unfold searchSeg at h
  cases hf : f.search with
  | none => rw [hf] at h; exact .inl h
  | some v =>
    rw [hf] at h
    simp only [] at h
    by_cases ht : v.truthy
    · rw [if_pos ht] at h
      simp only [List.mem_append, List.mem_singleton] at h
      rcases h with h | h
      · exact .inl h
      · right; subst h; simp [condJustified, condKeyPresent, hf]
    · rw [if_neg ht] at h; exact .inl h

theorem tagsSeg_conds (f : Filters) (a : WhereAcc) (c : Cond)
    (h : c ∈ (tagsSeg f a).conds) : c ∈ a.conds ∨ condJustified f c = true := by
  unfold tagsSeg at h
  cases hf : f.tags with
  | none => rw [hf] at h; exact .inl h
  | some v =>
    rw [hf] at h
    simp only [] at h
    by_cases ht : v.truthy
    · rw [if_pos ht] at h
      simp only [List.mem_append, List.mem_singleton] at h
      rcases h with h | h
      · exact .inl h
      · right; subst h; simp [condJustified, condKeyPresent, hf]
    · rw [if_neg ht] at h; exact .inl h

theorem skillsSeg_conds (f : Filters) (a : WhereAcc) (c : Cond)
    (h : c ∈ (skillsSeg f a).conds) : c ∈ a.conds ∨ condJustified f c = true := by
  unfold skillsSeg at h
  cases hf : f.skills with
  | none => rw [hf] at h; exact .inl h
  | some v =>
    rw [hf] at h
    simp only [] at h
    by_cases ht : v.truthy
    · rw [if_pos ht] at h
      simp only [List.mem_append, List.mem_singleton] at h
      rcases h with h | h
      · exact .inl h
      · right; subst h; simp [condJustified, condKeyPresent, hf]
    · rw [if_neg ht] at h; exact .inl h

theorem domainSeg_conds (f : Filters) (a : WhereAcc) (c : Cond)
    (h : c ∈ (domainSeg f a).conds) : c ∈ a.conds ∨ condJustified f c = true := by
  unfold domainSeg at h
  cases hf : f.domain with
  | none => rw [hf] at h; exact .inl h
  | some v =>
    rw [hf] at h
    simp only [] at h
    by_cases ht : v.truthy
    · rw [if_pos ht] at h
      simp only [List.mem_append, List.mem_singleton] at h
      rcases h with h | h
      · exact .inl h
      · right; subst h; simp [condJustified, condKeyPresent, hf]
    · rw [if_neg ht] at h; exact .inl h

theorem feesSeg_conds (f : Filters) (a : WhereAcc) (c : Cond)
    (h : c ∈ (feesSeg f a).conds) : c ∈ a.conds ∨ condJustified f c = true := by
  unfold feesSeg at h
  cases hf : f.fees with
  | none => rw [hf] at h; exact .inl h
  | some v =>
    rw [hf] at h
    simp only [] at h
    by_cases ht : v.truthy
    · rw [if_pos ht] at h
      simp only [List.mem_append, List.mem_singleton] at h
      rcases h with h | h
      · exact .inl h
      · right; subst h; simp [condJustified, condKeyPresent, hf]
    · rw [if_neg ht] at h; exact .inl h

theorem deadlineSeg_conds (now : Nat) (f : Filters) (a : WhereAcc) (c : Cond)
    (h : c ∈ (deadlineSeg now f a).conds) : c ∈ a.conds ∨ condJustified f c = true := by
  unfold deadlineSeg at h
  cases hf : f.deadline with
  | none => rw [hf] at h; exact .inl h
  | some v =>
    rw [hf] at h
    simp only [] at h
    by_cases ht : v.truthy
    · rw [if_pos ht] at h
      by_cases h1 : v = .str "upcoming"
      · rw [if_pos h1] at h
        simp only [List.mem_append, List.mem_singleton] at h
        rcases h with h | h
        · exact .inl h
        · right; subst h; simp [condJustified, condKeyPresent, hf]
      · rw [if_neg h1] at h
        by_cases h2 : v = .str "this_week"
        · rw [if_pos h2] at h
          simp only [List.mem_append, List.mem_singleton] at h
          rcases h with h | h
          · exact .inl h
          · right; subst h; simp [condJustified, condKeyPresent, hf]
        · rw [if_neg h2] at h
          by_cases h3 : v = .str "this_month"
          · rw [if_pos h3] at h
            simp only [List.mem_append, List.mem_singleton] at h
            rcases h with h | h
            · exact .inl h
            · right; subst h; simp [condJustified, condKeyPresent, hf]
          · rw [if_neg h3] at h; exact .inl h
    · rw [if_neg ht] at h; exact .inl h

end BaseOpportunityModel

/-!
## Claim theorems
-/

/-- C4 (amended): `buildWhereClause` emits predicates only for filter keys
present in the input bag, with the single documented exception that a default
`status = 'active'` predicate is emitted when the bag carries no `status` key
and no truthy `includeInactive`; `condJustified` states exactly this. -/
theorem buildWhereClause_conds_justified (tf : String) (f : Filters) (now : Nat)
    (c : Cond) (hc : c ∈ (BaseOpportunityModel.buildWhereClause tf f now).conds) :
    condJustified f c = true := by
  unfold BaseOpportunityModel.buildWhereClause at hc
  rcases BaseOpportunityModel.deadlineSeg_conds now f _ c hc with hc | hj
  · rcases BaseOpportunityModel.feesSeg_conds f _ c hc with hc | hj
    · rcases BaseOpportunityModel.domainSeg_conds f _ c hc with hc | hj
      · rcases BaseOpportunityModel.skillsSeg_conds f _ c hc with hc | hj
        · rcases BaseOpportunityModel.tagsSeg_conds f _ c hc with hc | hj
          · rcases BaseOpportunityModel.searchSeg_conds f _ c hc with hc | hj
            · rcases BaseOpportunityModel.verifiedSeg_conds f _ c hc with hc | hj
              · rcases BaseOpportunityModel.featuredSeg_conds f _ c hc with hc | hj
                · rcases BaseOpportunityModel.workStyleSeg_conds f _ c hc with hc | hj
                  · rcases BaseOpportunityModel.countrySeg_conds f _ c hc with hc | hj
                    · rcases BaseOpportunityModel.citySeg_conds f _ c hc with hc | hj
                      · rcases BaseOpportunityModel.statusSeg_conds f _ c hc with hc | hj
                        · rcases BaseOpportunityModel.typeSeg_conds tf f _ c hc with hc | hj
                          · simp at hc
                          · exact hj
                        · exact hj
                      · exact hj
                    · exact hj
                  · exact hj
                · exact hj
              · exact hj
            · exact hj
          · exact hj
        · exact hj
      · exact hj
    · exact hj
  · exact hj

/-- C4 counterexample: on the empty filter bag — no filter key present at
all — the Filter Compiler still emits a `status` predicate, so the claim
"the predicate list contains only conditions corresponding to keys present in
filters" is false as stated. -/
theorem buildWhereClause_default_status_counterexample :
    Cond.statusEq 1 ∈ (BaseOpportunityModel.buildWhereClause "work_type" {} 0).conds ∧
    condKeyPresent {} (Cond.statusEq 1) = false ∧
    ({} : Filters).status = none ∧ ({} : Filters).includeInactive = none := by
  decide

/-- Witness for the amended C4 theorem at a concrete bag with a city filter. -/
theorem buildWhereClause_conds_justified_witness :
    condJustified { city := some (QVal.str "Delhi") } (Cond.cityLike 2) = true :=
  buildWhereClause_conds_justified "work_type" { city := some (QVal.str "Delhi") } 0
    (Cond.cityLike 2) (by decide)

/-- C1: the filter bags built by `GET /internships` and `GET /jobs` store the
forced discriminator under the key `work_type`, which `buildWhereClause`
never reads (it reads `filters.type`), so with no caller-supplied query the
compiled predicate list is only the default `status = 'active'` condition —
no exact-match predicate on the `work_type` column is emitted for either
endpoint, contradicting the endpoint's own "Force type" intent. -/
theorem getInternships_bag_emits_no_discriminator_predicate :
    (workController.getInternshipsFilters {}).work_type = some (QVal.str "internship") ∧
    (BaseOpportunityModel.buildWhereClause "work_type"
      (workController.getInternshipsFilters {}) 0).conds = [Cond.statusEq 1] ∧
    (workController.getJobsFilters {}).work_type = some (QVal.str "job") ∧
    (BaseOpportunityModel.buildWhereClause "work_type"
      (workController.getJobsFilters {}) 0).conds = [Cond.statusEq 1] := by
  decide

/-- C2: on the create conflict path, the work-store flips a stored 'expired'
status back to 'active' and keeps every other stored status (including
'active') unchanged; the event-store does the same for 'expired' and
'archived'; and the row stored under the key after the call is exactly the
returned row. -/
theorem create_conflict_status_resurrection
    (ws : Store) (wd : CreateData) (wt nW : String) (tW : Nat) (oldW : Row)
    (hW : findConflict ws wt wd.apply_url = some oldW)
    (es : Store) (ed : CreateData) (et nE : String) (tE : Nat) (oldE : Row)
    (hE : findConflict es et ed.apply_url = some oldE) :
    ((WorkOpportunityModel.create ws wd wt nW tW).1.row.status =
      if oldW.status = "expired" then "active" else oldW.status) ∧
    findConflict (WorkOpportunityModel.create ws wd wt nW tW).2 wt wd.apply_url =
      some (WorkOpportunityModel.create ws wd wt nW tW).1.row ∧
    ((EventOpportunityModel.create es ed et nE tE).1.row.status =
      if oldE.status = "expired" || oldE.status = "archived" then "active"
      else oldE.status) ∧
    findConflict (EventOpportunityModel.create es ed et nE tE).2 et ed.apply_url =
      some (EventOpportunityModel.create es ed et nE tE).1.row := by
  refine ⟨?_, ?_, ?_, ?_⟩
  · simp only [WorkOpportunityModel.create, hW]
    simp [WorkOpportunityModel.conflictUpdate]
  · simp only [WorkOpportunityModel.create, hW]
    exact findConflict_map_ite ws wt wd.apply_url
      (fun r => WorkOpportunityModel.conflictUpdate r wd tW)
      (by intro r; simp [WorkOpportunityModel.conflictUpdate])
      (by intro r; simp [WorkOpportunityModel.conflictUpdate]) oldW hW
  · simp only [EventOpportunityModel.create, hE]
    simp [EventOpportunityModel.conflictUpdate]
  · simp only [EventOpportunityModel.create, hE]
    exact findConflict_map_ite es et ed.apply_url
      (fun r => EventOpportunityModel.conflictUpdate r ed tE)
      (by intro r; simp [EventOpportunityModel.conflictUpdate])
      (by intro r; simp [EventOpportunityModel.conflictUpdate]) oldE hE

/-- Witness for C2: re-ingesting an expired work row and an archived event
row revives both to 'active'. -/
theorem create_conflict_status_resurrection_witness :
    (WorkOpportunityModel.create [fixWorkExpired] fixWorkData "internship" "n1" 5).1.row.status
      = "active" ∧
    (EventOpportunityModel.create [fixEventArchived] fixEventData "hackathon" "n2" 6).1.row.status
      = "active" := by
  have h := create_conflict_status_resurrection [fixWorkExpired] fixWorkData "internship" "n1" 5
    fixWorkExpired (by decide) [fixEventArchived] fixEventData "hackathon" "n2" 6
    fixEventArchived (by decide)
  refine ⟨?_, ?_⟩
  · rw [h.1]; decide
  · rw [h.2.2.1]; decide

/-- C3: starting from a store with no row for the key, calling create twice
with the same (subtype, apply_url) leaves exactly one row under the key, the
first call's action is 'created' and the second call's action is 'updated';
the tag is computed inside the single upsert (no separate existence check in
the model).  Both stores behave alike. -/
theorem create_twice_one_row_created_then_updated
    (ws : Store) (d1 d2 : CreateData) (wt n1 n2 : String) (t1 t2 : Nat)
    (hw0 : keyCount ws wt d1.apply_url = 0) (hwu : d2.apply_url = d1.apply_url)
    (es : Store) (e1 e2 : CreateData) (et m1 m2 : String) (s1 s2 : Nat)
    (he0 : keyCount es et e1.apply_url = 0) (heu : e2.apply_url = e1.apply_url) :
    ((WorkOpportunityModel.create ws d1 wt n1 t1).1.action = "created" ∧
     keyCount (WorkOpportunityModel.create ws d1 wt n1 t1).2 wt d1.apply_url = 1 ∧
     (WorkOpportunityModel.create
        (WorkOpportunityModel.create ws d1 wt n1 t1).2 d2 wt n2 t2).1.action = "updated" ∧
     keyCount (WorkOpportunityModel.create
        (WorkOpportunityModel.create ws d1 wt n1 t1).2 d2 wt n2 t2).2 wt d1.apply_url = 1) ∧
    ((EventOpportunityModel.create es e1 et m1 s1).1.action = "created" ∧
     keyCount (EventOpportunityModel.create es e1 et m1 s1).2 et e1.apply_url = 1 ∧
     (EventOpportunityModel.create
        (EventOpportunityModel.create es e1 et m1 s1).2 e2 et m2 s2).1.action = "updated" ∧
     keyCount (EventOpportunityModel.create
        (EventOpportunityModel.create es e1 et m1 s1).2 e2 et m2 s2).2 et e1.apply_url = 1) := by
  have hwnone := findConflict_eq_none hw0
  have henone := findConflict_eq_none he0
  have hwk : keyMatch wt d1.apply_url (WorkOpportunityModel.newRow d1 wt n1 t1) = true := by
    simp [keyMatch, WorkOpportunityModel.newRow]
  have hek : keyMatch et e1.apply_url (EventOpportunityModel.newRow e1 et m1 s1) = true := by
    simp [keyMatch, EventOpportunityModel.newRow]
  have hwsnd : findConflict (ws ++ [WorkOpportunityModel.newRow d1 wt n1 t1]) wt d2.apply_url
      = some (WorkOpportunityModel.newRow d1 wt n1 t1) := by
    rw [hwu]; exact findConflict_append_singleton ws wt d1.apply_url _ hwnone hwk
  have hesnd : findConflict (es ++ [EventOpportunityModel.newRow e1 et m1 s1]) et e2.apply_url
      = some (EventOpportunityModel.newRow e1 et m1 s1) := by
    rw [heu]; exact findConflict_append_singleton es et e1.apply_url _ henone hek
  have hwcount : keyCount (ws ++ [WorkOpportunityModel.newRow d1 wt n1 t1]) wt d1.apply_url = 1 := by
    rw [keyCount_append, hw0]
    simp [keyCount, hwk]
  have hecount : keyCount (es ++ [EventOpportunityModel.newRow e1 et m1 s1]) et e1.apply_url = 1 := by
    rw [keyCount_append, he0]
    simp [keyCount, hek]
  refine ⟨⟨?_, ?_, ?_, ?_⟩, ⟨?_, ?_, ?_, ?_⟩⟩
  · simp only [WorkOpportunityModel.create, hwnone]
  · simp only [WorkOpportunityModel.create, hwnone]
    exact hwcount
  · simp only [WorkOpportunityModel.create, hwnone, hwsnd]
  · simp only [WorkOpportunityModel.create, hwnone, hwsnd]
    rw [hwu]
    rw [keyCount_map_ite _ _ _ (fun r => WorkOpportunityModel.conflictUpdate r d2 t2)
      (by intro r; simp [WorkOpportunityModel.conflictUpdate])
      (by intro r; simp [WorkOpportunityModel.conflictUpdate])]
    exact hwcount
  · simp only [EventOpportunityModel.create, henone]
  · simp only [EventOpportunityModel.create, henone]
    exact hecount
  · simp only [EventOpportunityModel.create, henone, hesnd]
  · simp only [EventOpportunityModel.create, henone, hesnd]
    rw [heu]
    rw [keyCount_map_ite _ _ _ (fun r => EventOpportunityModel.conflictUpdate r e2 s2)
      (by intro r; simp [EventOpportunityModel.conflictUpdate])
      (by intro r; simp [EventOpportunityModel.conflictUpdate])]
    exact hecount

/-- Witness for C3 from empty stores. -/
theorem create_twice_one_row_witness :
    (WorkOpportunityModel.create [] fixWorkData "internship" "n1" 1).1.action = "created" ∧
    (WorkOpportunityModel.create
      (WorkOpportunityModel.create [] fixWorkData "internship" "n1" 1).2
      fixWorkData "internship" "n2" 2).1.action = "updated" := by
  have h := create_twice_one_row_created_then_updated [] fixWorkData fixWorkData
    "internship" "n1" "n2" 1 2 (by decide) rfl [] fixEventData fixEventData
    "hackathon" "m1" "m2" 1 2 (by decide) rfl
  exact ⟨h.1.1, h.1.2.2.1⟩

/-- C8: the conflict path of both creates never alters the stored identity
fields (discriminator subtype, apply_url) and keeps the stored is_verified,
is_featured, external_id and source — these are set only at creation and not
refreshed from the incoming payload. -/
theorem create_conflict_preserves_identity_and_creation_fields
    (ws : Store) (wd : CreateData) (wt nW : String) (tW : Nat) (oldW : Row)
    (hW : findConflict ws wt wd.apply_url = some oldW)
    (es : Store) (ed : CreateData) (et nE : String) (tE : Nat) (oldE : Row)
    (hE : findConflict es et ed.apply_url = some oldE) :
    ((WorkOpportunityModel.create ws wd wt nW tW).1.row.subtype = oldW.subtype ∧
     (WorkOpportunityModel.create ws wd wt nW tW).1.row.apply_url = oldW.apply_url ∧
     (WorkOpportunityModel.create ws wd wt nW tW).1.row.is_verified = oldW.is_verified ∧
     (WorkOpportunityModel.create ws wd wt nW tW).1.row.is_featured = oldW.is_featured ∧
     (WorkOpportunityModel.create ws wd wt nW tW).1.row.external_id = oldW.external_id ∧
     (WorkOpportunityModel.create ws wd wt nW tW).1.row.source = oldW.source) ∧
    ((EventOpportunityModel.create es ed et nE tE).1.row.subtype = oldE.subtype ∧
     (EventOpportunityModel.create es ed et nE tE).1.row.apply_url = oldE.apply_url ∧
     (EventOpportunityModel.create es ed et nE tE).1.row.is_verified = oldE.is_verified ∧
     (EventOpportunityModel.create es ed et nE tE).1.row.is_featured = oldE.is_featured ∧
     (EventOpportunityModel.create es ed et nE tE).1.row.external_id = oldE.external_id ∧
     (EventOpportunityModel.create es ed et nE tE).1.row.source = oldE.source) := by
  constructor
  · simp only [WorkOpportunityModel.create, hW]
    simp [WorkOpportunityModel.conflictUpdate]
  · simp only [EventOpportunityModel.create, hE]
    simp [EventOpportunityModel.conflictUpdate]

/-- Witness for C8: the conflicting upsert on the expired fixtures keeps
identity and creation-time fields. -/
theorem create_conflict_preserves_witness :
    (WorkOpportunityModel.create [fixWorkExpired] fixWorkData "internship" "n1" 5).1.row.source
      = fixWorkExpired.source ∧
    (EventOpportunityModel.create [fixEventArchived] fixEventData "hackathon" "n2" 6).1.row.apply_url
      = fixEventArchived.apply_url := by
  have h := create_conflict_preserves_identity_and_creation_fields
    [fixWorkExpired] fixWorkData "internship" "n1" 5 fixWorkExpired (by decide)
    [fixEventArchived] fixEventData "hackathon" "n2" 6 fixEventArchived (by decide)
  exact ⟨h.1.2.2.2.2.2, h.2.2.1⟩

/-- C6: when an identifier is present in both stores, every identifier-keyed
operation resolves in the work-store: fetch returns the work row tagged
category 'work' (and bumps only the work-store view count), delete takes the
work-store (hard-delete) branch leaving the event store untouched, and patch
routes to `BaseOpportunityModel.update` on the work store, never touching
the event store. -/
theorem resolver_work_store_precedence
    (work event : Store) (id : String) (w e : Row) (upd : Updates) (now : Nat)
    (hu : validators.isValidUUID id = true)
    (hw : BaseOpportunityModel.findById work id = some w)
    (_he : BaseOpportunityModel.findById event id = some e) :
    opportunityController.getById work event id now =
      (.ok { w with view_count := w.view_count + 1 } "work",
       BaseOpportunityModel.incrementViewCount work id now, event) ∧
    opportunityController.delete work event id now =
      (.noContent, work.filter fun r => r.id ≠ id, event) ∧
    opportunityController.update work event id upd now =
      (if fieldTruthy (upd.lookup "work_type") ||
          fieldTruthy (upd.lookup "event_type") then
        (.badRequestType, work, event)
      else
        match BaseOpportunityModel.update work id upd now with
        | .ok rw2 => (.ok rw2.1, rw2.2, event)
        | .error m => (.err m, work, event)) := by
  refine ⟨?_, ?_, ?_⟩
  · simp only [opportunityController.getById, hu, hw]
    simp
  · simp only [opportunityController.delete, hu, hw, BaseOpportunityModel.delete, hw]
    simp [hw]
  · simp only [opportunityController.update, hu]
    by_cases hg : fieldTruthy (upd.lookup "work_type") ||
        fieldTruthy (upd.lookup "event_type")
    · simp [hg]
    · simp only [hg, Bool.false_eq_true, if_false, if_neg, hw]
      simp [hw]
      cases hres : BaseOpportunityModel.update work id upd now with
      | ok rw2 => simp
      | error m => simp

/-- Witness for C6 at an id stored in both fixtures. -/
theorem resolver_work_store_precedence_witness :
    (opportunityController.getById [fixW6] [fixE6] uuidC 3).1 =
      .ok { fixW6 with view_count := fixW6.view_count + 1 } "work" ∧
    (opportunityController.delete [fixW6] [fixE6] uuidC 3).2.2 = [fixE6] := by
  have h := resolver_work_store_precedence [fixW6] [fixE6] uuidC fixW6 fixE6 [] 3
    (by decide) (by decide) (by decide)
  refine ⟨?_, ?_⟩
  · rw [h.1]
  · rw [h.2.1]

/-- C7: deleting an identifier resolving in the work-store answers 204
(`noContent`, no body) and removes the row, so a subsequent fetch answers
404; deleting an identifier resolving in the event-store answers 204 and
retains the row with status 'archived', so a subsequent fetch still returns
it (tagged 'event', with the archived status). -/
theorem delete_hard_work_archive_event
    (workA eventA : Store) (idA : String) (wA : Row) (nowA nowA2 : Nat)
    (huA : validators.isValidUUID idA = true)
    (hwA : BaseOpportunityModel.findById workA idA = some wA)
    (heA : BaseOpportunityModel.findById eventA idA = none)
    (workB eventB : Store) (idB : String) (eB : Row) (nowB nowB2 : Nat)
    (huB : validators.isValidUUID idB = true)
    (hwB : BaseOpportunityModel.findById workB idB = none)
    (heB : BaseOpportunityModel.findById eventB idB = some eB) :
    (opportunityController.delete workA eventA idA nowA =
      (.noContent, workA.filter fun r => r.id ≠ idA, eventA)) ∧
    opportunityController.DeleteResp.noContent.status = 204 ∧
    (opportunityController.getById (workA.filter fun r => r.id ≠ idA) eventA idA nowA2 =
      (.notFound, workA.filter fun r => r.id ≠ idA, eventA)) ∧
    (opportunityController.delete workB eventB idB nowB =
      (.noContent, workB,
       eventB.map fun r =>
         if r.id = idB then { r with status := "archived", updated_at := nowB } else r)) ∧
    ((opportunityController.getById workB
        (eventB.map fun r =>
          if r.id = idB then { r with status := "archived", updated_at := nowB } else r)
        idB nowB2).1 =
      .ok { eB with status := "archived", updated_at := nowB,
                    view_count := eB.view_count + 1 } "event") := by
  have hgone : BaseOpportunityModel.findById (workA.filter fun r => r.id ≠ idA) idA = none :=
    findById_filter_ne workA idA
  have harch : BaseOpportunityModel.findById
      (eventB.map fun r =>
        if r.id = idB then { r with status := "archived", updated_at := nowB } else r) idB =
      some { eB with status := "archived", updated_at := nowB } :=
    findById_map_ite eventB idB
      (fun r => { r with status := "archived", updated_at := nowB })
      (by intro r; simp) eB heB
  refine ⟨?_, rfl, ?_, ?_, ?_⟩
  · simp only [opportunityController.delete, huA, hwA, BaseOpportunityModel.delete]
    simp [hwA]
  · simp only [opportunityController.getById, huA, hgone, heA]
    simp
  · simp only [opportunityController.delete, huB, hwB, heB, BaseOpportunityModel.delete]
    simp [heB]
  · simp only [opportunityController.getById, huB, hwB, harch]
    simp

/-- Witness for C7 with one-row fixture stores per scenario. -/
theorem delete_hard_work_archive_event_witness :
    (opportunityController.delete [fixW7] [] uuidA 1).1 =
      opportunityController.DeleteResp.noContent ∧
    (opportunityController.getById ([fixW7].filter fun r => r.id ≠ uuidA) [] uuidA 2).1 =
      opportunityController.GetResp.notFound ∧
    (opportunityController.delete [] [fixE7] uuidB 1).1 =
      opportunityController.DeleteResp.noContent := by
  have h := delete_hard_work_archive_event [fixW7] [] uuidA fixW7 1 2
    (by decide) (by decide) (by decide) [] [fixE7] uuidB fixE7 1 2
    (by decide) (by decide) (by decide)
  exact ⟨by rw [h.1], by rw [h.2.2.1], by rw [h.2.2.2.1]⟩

/-- C5: validatePagination clamps instead of rejecting — the sanitized page
is ≥ 1 (default 1) and the sanitized limit lies in [1, 50] (default 10) —
and findAll computes offset = (page − 1) × limit, totalPages as the ceiling
of total / limit, and hasMore exactly when page × limit < total. -/
theorem pagination_clamps_and_findAll_meta
    (pq lq : Option Int) (p l : Int) (total : Nat)
    (hpl : validators.validatePagination pq lq 50 = (p, l)) :
    1 ≤ p ∧ (pq = none → p = 1) ∧
    1 ≤ l ∧ l ≤ 50 ∧ (lq = none → l = 10) ∧
    (findAllPagination p l total).1 = (p - 1) * l ∧
    (findAllPagination p l total).2.totalPages = ⌈(total : ℚ) / (l : ℚ)⌉ ∧
    ((findAllPagination p l total).2.hasMore = true ↔ p * l < (total : Int)) := by
  have hp : p = max 1 (validators.jsOrInt pq 1) := by
    have := congrArg Prod.fst hpl
    simpa [validators.validatePagination] using this.symm
  have hl : l = min 50 (max 1 (validators.jsOrInt lq 10)) := by
    have := congrArg Prod.snd hpl
    simpa [validators.validatePagination] using this.symm
  refine ⟨?_, ?_, ?_, ?_, ?_, ?_, ?_, ?_⟩
  · rw [hp]; exact le_max_left 1 _
  · intro hnone; rw [hp, hnone]; rfl
  · rw [hl]
    exact le_min (by norm_num) (le_max_left 1 _)
  · rw [hl]; exact min_le_left 50 _
  · intro hnone; rw [hl, hnone]; rfl
  · simp [findAllPagination]
  · simp [findAllPagination]
  · simp [findAllPagination]

/-- Witness for C5: page −4 clamps to 1, limit 200 clamps to 50, and with
100 matching rows the first page of 50 reports more to come. -/
theorem pagination_clamps_witness :
    (findAllPagination 1 50 100).2.hasMore = true := by
  have h := pagination_clamps_and_findAll_meta (some (-4)) (some 200) 1 50 100 (by decide)
  exact h.2.2.2.2.2.2.2.mpr (by decide)

/-- C9: the Batch Coordinator answers 400 — before any upsert, with the
stores untouched — when the opportunities list is absent, not an array,
empty, or longer than 500 elements. -/
theorem batchCreate_rejects_before_processing
    (src : Option String) (work event : Store) (supply : Nat → String) (now : Nat)
    (xs : List batchController.BatchItem) (hlen : 500 < xs.length) :
    batchController.batchCreate src .missing work event supply now =
      (.badRequest "Invalid input" "opportunities must be an array", work, event) ∧
    batchController.batchCreate src .nonArray work event supply now =
      (.badRequest "Invalid input" "opportunities must be an array", work, event) ∧
    batchController.batchCreate src (.arr []) work event supply now =
      (.badRequest "Empty batch" "opportunities array cannot be empty", work, event) ∧
    batchController.batchCreate src (.arr xs) work event supply now =
      (.badRequest "Batch too large" "Maximum 500 opportunities per batch", work, event) ∧
    (batchController.BatchResp.badRequest "Batch too large"
      "Maximum 500 opportunities per batch").status = 400 := by
  have h0 : xs.length ≠ 0 := by omega
  refine ⟨rfl, rfl, by simp [batchController.batchCreate], ?_, rfl⟩
  simp [batchController.batchCreate, h0, hlen]

/-- Witness for C9: a 501-element batch is rejected and both stores are
returned unchanged. -/
theorem batchCreate_rejects_witness :
    batchController.batchCreate none (.arr (List.replicate 501 fixBatchItem))
      [fixW7] [fixE7] (fun _ => "x") 0 =
      (.badRequest "Batch too large" "Maximum 500 opportunities per batch",
       [fixW7], [fixE7]) := by
  have h := batchCreate_rejects_before_processing none [fixW7] [fixE7] (fun _ => "x") 0
    (List.replicate 501 fixBatchItem) (by rw [List.length_replicate]; omega)
  exact h.2.2.2.1

/-- C10 counterexample: a PATCH body whose only entry is a truthy
`work_type` contains no allow-listed field and the entity exists, yet the
controller answers the 400 'Cannot change opportunity type' guard instead of
reaching the model's 'No valid fields to update' throw — so the claim is
false as stated for such bodies. -/
theorem update_type_guard_counterexample :
    (fixTypePatch.all fun p => !BaseOpportunityModel.allowedFields.contains p.1) = true ∧
    (BaseOpportunityModel.findById [fixW7] uuidA).isSome = true ∧
    (opportunityController.update [fixW7] [] uuidA fixTypePatch 3).1 =
      opportunityController.UpdateResp.badRequestType := by
  decide

/-- C10 (amended): for every PATCH on a valid identifier that resolves in
either store, if the body contains no defined allow-listed field and its
`work_type` / `event_type` entries are not truthy, the operation surfaces
the model throw 'No valid fields to update' and both stores are unchanged. -/
theorem update_no_valid_fields_throws
    (work event : Store) (id : String) (upd : Updates) (now : Nat)
    (hu : validators.isValidUUID id = true)
    (hwt : fieldTruthy (upd.lookup "work_type") = false)
    (het : fieldTruthy (upd.lookup "event_type") = false)
    (hno : (upd.filter fun p =>
      BaseOpportunityModel.allowedFields.contains p.1 && p.2 ≠ FieldVal.undef) = [])
    (hex : (BaseOpportunityModel.findById work id).isSome ∨
      (BaseOpportunityModel.findById event id).isSome) :
    opportunityController.update work event id upd now =
      (.err "No valid fields to update", work, event) := by
  have hemp : (upd.filter fun p =>
      BaseOpportunityModel.allowedFields.contains p.1 && p.2 ≠ FieldVal.undef).isEmpty
      = true := by
    rw [hno]; rfl
  simp only [opportunityController.update, hu, hwt, het]
  cases hw : BaseOpportunityModel.findById work id with
  | some w =>
    simp only [hw]
    simp only [BaseOpportunityModel.update, hemp]
    simp
  | none =>
    cases hev : BaseOpportunityModel.findById event id with
    | some e =>
      simp only [hw, hev]
      simp only [BaseOpportunityModel.update, hemp]
      simp
    | none =>
      rcases hex with hx | hx
      · rw [hw] at hx; simp at hx
      · rw [hev] at hx; simp at hx

/-- Witness for the amended C10 theorem: a junk-keyed PATCH on an existing
work row surfaces the throw and changes nothing. -/
theorem update_no_valid_fields_witness :
    opportunityController.update [fixW7] [] uuidA fixJunkPatch 4 =
      (.err "No valid fields to update", [fixW7], []) :=
  update_no_valid_fields_throws [fixW7] [] uuidA fixJunkPatch 4
    (by decide) (by decide) (by decide) (by decide) (.inl (by decide))
